import Mathlib

/- Shallow embedding of the whatsfordinner dinner-workflow core:
   the poll/vote engine (pkg/poll in src/pkg/storage/doc.go), the dinner
   lifecycle (pkg/dinner), the scheduler (pkg/scheduler/scheduler.go) and
   the per-chat session state manager (pkg/state).

   Modelling conventions:
   - Go maps become association lists with unique keys; `mapSet` is the Go
     map assignment (overwrite), `mapGet` the comma-ok lookup, `mapGetD`
     the Go read that yields the zero value for a missing key, `mapDelete`
     the builtin delete.
   - `time.Time` becomes a `Nat` measured in minutes; the zero value of
     `time.Time` (`IsZero`) becomes `0`.
   - `float64` arithmetic (`math.Ceil`, the average rating) is modelled
     exactly over `Rat`.
   - The BadgerDB-backed Store becomes a record of association lists; its
     Get returns an Option and its Set always succeeds (storage-layer
     failures are environmental and outside this model).
   - Mutating service methods return `Store x Option String`: the final
     store (reflecting any writes made before an error) and the error, so
     that "no mutation on failure" is a provable statement.  Read-only
     methods return `Except String`.
   - Go map iteration order is unspecified; where the code ranges over a
     map to pick a winner, the model fixes the entry list produced by
     construction and the theorems quantify over all permutations of it. -/

namespace WhatsForDinner

/-- Go map assignment `m[k] = v`: overwrite the entry for `k` if present,
otherwise append a new entry. -/
def mapSet {α β : Type} [DecidableEq α] : List (α × β) → α → β → List (α × β)
  | [], k, v => [(k, v)]
  | (k', v') :: rest, k, v =>
      if k' = k then (k, v) :: rest else (k', v') :: mapSet rest k v

/-- Go map lookup with comma-ok: `v, ok := m[k]`. -/
def mapGet {α β : Type} [DecidableEq α] : List (α × β) → α → Option β
  | [], _ => none
  | (k', v') :: rest, k => if k' = k then some v' else mapGet rest k

/-- Go map read without comma-ok: missing keys yield the zero value `d`. -/
def mapGetD {α β : Type} [DecidableEq α] (m : List (α × β)) (k : α) (d : β) : β :=
  (mapGet m k).getD d

/-- Go builtin `delete(m, k)`. -/
def mapDelete {α β : Type} [DecidableEq α] : List (α × β) → α → List (α × β)
  | [], _ => []
  | (k', v') :: rest, k =>
      if k' = k then mapDelete rest k else (k', v') :: mapDelete rest k

@[simp] theorem mapGet_nil {α β : Type} [DecidableEq α] (k : α) :
    mapGet ([] : List (α × β)) k = none := rfl

theorem mapGet_mapSet_self {α β : Type} [DecidableEq α]
    (m : List (α × β)) (k : α) (v : β) : mapGet (mapSet m k v) k = some v := by
  induction m with
  | nil => simp [mapSet, mapGet]
  | cons p rest ih =>
      obtain ⟨a, b⟩ := p
      by_cases h : a = k
      · simp [mapSet, mapGet, h]
      · simp [mapSet, mapGet, h, ih]

theorem mapGet_mapSet_ne {α β : Type} [DecidableEq α]
    (m : List (α × β)) (k k' : α) (v : β) (h : k' ≠ k) :
    mapGet (mapSet m k v) k' = mapGet m k' := by
  have h' : ¬ k = k' := fun hh => h hh.symm
  induction m with
  | nil => simp [mapSet, mapGet, h']
  | cons p rest ih =>
      obtain ⟨a, b⟩ := p
      by_cases ha : a = k
      · subst ha
        simp [mapSet, mapGet, h']
      · simp [mapSet, mapGet, ha, ih]

theorem mapGet_mapDelete_self {α β : Type} [DecidableEq α]
    (m : List (α × β)) (k : α) : mapGet (mapDelete m k) k = none := by
  induction m with
  | nil => simp [mapDelete]
  | cons p rest ih =>
      obtain ⟨a, b⟩ := p
      by_cases ha : a = k
      · subst ha
        simp [mapDelete, ih]
      · simp [mapDelete, mapGet, ha, ih]

theorem mapGet_mapDelete_ne {α β : Type} [DecidableEq α]
    (m : List (α × β)) (k k' : α) (h : k' ≠ k) :
    mapGet (mapDelete m k) k' = mapGet m k' := by
  have h' : ¬ k = k' := fun hh => h hh.symm
  induction m with
  | nil => simp [mapDelete]
  | cons p rest ih =>
      obtain ⟨a, b⟩ := p
      by_cases ha : a = k
      · subst ha
        simp [mapDelete, mapGet, h', ih]
      · simp [mapDelete, mapGet, ha, ih]

/-- Keys of an association list. -/
def keysOf {α β : Type} (m : List (α × β)) : List α := m.map Prod.fst

@[simp] theorem keysOf_nil {α β : Type} : keysOf ([] : List (α × β)) = [] := rfl

@[simp] theorem keysOf_cons {α β : Type} (a : α) (b : β) (m : List (α × β)) :
    keysOf ((a, b) :: m) = a :: keysOf m := rfl

theorem keysOf_mapSet {α β : Type} [DecidableEq α]
    (m : List (α × β)) (k : α) (v : β) :
    keysOf (mapSet m k v) = if k ∈ keysOf m then keysOf m else keysOf m ++ [k] := by
  induction m with
  | nil => simp [mapSet]
  | cons p rest ih =>
      obtain ⟨a, b⟩ := p
      by_cases ha : a = k
      · subst ha
        simp [mapSet]
      · have hka : ¬ k = a := fun hh => ha hh.symm
        by_cases hk : k ∈ keysOf rest
        · simp [mapSet, ha, ih, hk, hka]
        · simp [mapSet, ha, ih, hk, hka]

theorem keysOf_nodup_mapSet {α β : Type} [DecidableEq α]
    (m : List (α × β)) (k : α) (v : β) (h : (keysOf m).Nodup) :
    (keysOf (mapSet m k v)).Nodup := by
  rw [keysOf_mapSet]
  by_cases hk : k ∈ keysOf m
  · simpa [hk] using h
  · simp [hk, List.nodup_append, h]

theorem mapGet_eq_some_of_mem {α β : Type} [DecidableEq α]
    (m : List (α × β)) (k : α) (v : β) (hnd : (keysOf m).Nodup)
    (hmem : (k, v) ∈ m) : mapGet m k = some v := by
  induction m with
  | nil => simp at hmem
  | cons p rest ih =>
      obtain ⟨a, b⟩ := p
      have hnd1 : a ∉ keysOf rest := (List.nodup_cons.mp (by simpa using hnd)).1
      have hnd2 : (keysOf rest).Nodup := (List.nodup_cons.mp (by simpa using hnd)).2
      rcases List.mem_cons.mp hmem with h | h
      · have h1 : k = a := congrArg Prod.fst h
        have h2 : v = b := congrArg Prod.snd h
        subst h1
        subst h2
        simp [mapGet]
      · have hak : ¬ a = k := by
          intro hk
          subst hk
          exact hnd1 (List.mem_map.mpr ⟨(a, v), h, rfl⟩)
        simp [mapGet, hak, ih hnd2 h]

theorem mem_of_mapGet_eq_some {α β : Type} [DecidableEq α]
    (m : List (α × β)) (k : α) (v : β) (h : mapGet m k = some v) : (k, v) ∈ m := by
  induction m with
  | nil => simp [mapGet] at h
  | cons p rest ih =>
      obtain ⟨a, b⟩ := p
      by_cases ha : a = k
      · subst ha
        simp [mapGet] at h
        subst h
        exact List.mem_cons_self _ _
      · simp [mapGet, ha] at h
        exact List.mem_cons_of_mem _ (ih h)

/-- models.Dish (src/pkg/stats/stats.go, type Dish). -/
structure Dish where
  name : String
  cuisine : String
  ingredients : List String
  instructions : List String
  deriving DecidableEq, Repr

/-- models.VoteState (src/pkg/stats/stats.go, type VoteState).  Timestamps
are Nat minutes, 0 standing for the Go zero time. -/
structure VoteState where
  pollID : String
  messageID : Int
  options : List String
  votes : List (String × String)
  startedAt : Nat
  endedAt : Nat
  winningDish : String
  cookVolunteers : List String
  selectedCook : String
  deriving DecidableEq, Repr

/-- models.Dinner (src/pkg/stats/stats.go, type Dinner).  The float64
average is modelled exactly over the rationals. -/
structure Dinner where
  id : String
  channelID : Int
  dish : Dish
  cook : String
  startedAt : Nat
  finishedAt : Nat
  ratings : List (String × Int)
  averageRating : Rat
  usedIngredients : List String
  deriving DecidableEq, Repr

/-- models.ChannelState (src/pkg/stats/stats.go, type ChannelState). -/
structure ChannelState where
  channelID : Int
  fridgeID : String
  currentDinner : Option Dinner
  currentVote : Option VoteState
  lastActivity : Nat
  cuisines : List String
  memberCount : Int
  deriving DecidableEq, Repr

/-- The durable key-value store, split by key namespace: `vote:cid:pid`
records, `channel:cid` records, dinner records keyed by their ID string and
the `poll_mapping:pid` index.  Get returns an Option, Set always succeeds. -/
structure Store where
  votes : List ((Int × String) × VoteState)
  channels : List (Int × ChannelState)
  dinners : List (String × Dinner)
  pollMapping : List (String × Int)
  deriving DecidableEq, Repr

/-- Service.CreateVote (pkg/poll): builds a VoteState with an empty ballot
map, stores it, writes the poll-to-channel index, then publishes the vote
as the channel CurrentVote with a fresh LastActivity, creating the channel
state if the store did not have one.  The Go code performs no validation of
`options`.  `now` stands for time.Now(). -/
def CreateVote (s : Store) (channelID : Int) (pollID : String) (messageID : Int)
    (options : List String) (now : Nat) : VoteState × Store :=
  let vote : VoteState :=
    { pollID := pollID, messageID := messageID, options := options,
      votes := [], startedAt := now, endedAt := 0, winningDish := "",
      cookVolunteers := [], selectedCook := "" }
  let s1 : Store := { s with votes := mapSet s.votes (channelID, pollID) vote }
  let s2 : Store := { s1 with pollMapping := mapSet s1.pollMapping pollID channelID }
  let channelState : ChannelState :=
    match mapGet s2.channels channelID with
    | some cs => cs
    | none =>
        { channelID := channelID, fridgeID := "fridge:" ++ toString channelID,
          currentDinner := none, currentVote := none, lastActivity := now,
          cuisines := [], memberCount := 0 }
  let channelState' := { channelState with currentVote := some vote, lastActivity := now }
  (vote, { s2 with channels := mapSet s2.channels channelID channelState' })

/-- Service.RecordVote (pkg/poll): looks the vote up, rejects an option not
in the option list without touching the store, otherwise overwrites the
ballot of `userID`.  Note that it performs no check of EndedAt. -/
def RecordVote (s : Store) (channelID : Int) (pollID userID optionChoice : String) :
    Store × Option String :=
  match mapGet s.votes (channelID, pollID) with
  | none => (s, some "vote not found")
  | some vote =>
      if optionChoice ∈ vote.options then
        let vote' := { vote with votes := mapSet vote.votes userID optionChoice }
        ({ s with votes := mapSet s.votes (channelID, pollID) vote' }, none)
      else
        (s, some ("invalid option: " ++ optionChoice))

/-- Results-map construction of Service.GetVoteResults: every option is
seeded with 0, then each recorded ballot increments its option. -/
def buildResults (vote : VoteState) : List (String × Nat) :=
  let init := vote.options.foldl (fun m o => mapSet m o 0) []
  vote.votes.foldl (fun m p => mapSet m p.2 (mapGetD m p.2 0 + 1)) init

/-- Winner scan of Service.GetVoteResults: one pass over the results
entries keeping the first entry whose count strictly exceeds the running
maximum, starting from the empty string and 0.  The list argument stands
for one Go map iteration order. -/
def findWinnerFold (entries : List (String × Nat)) : String × Nat :=
  entries.foldl (fun acc e => if e.2 > acc.2 then e else acc) ("", 0)

/-- Service.GetVoteResults (pkg/poll): counts ballots per option and scans
the results map for the option with the maximal count.  Go iterates the
map in an unspecified order; this definition fixes the construction order
of `buildResults`, and the theorems that depend on the winner quantify
over all permutations of those entries. -/
def GetVoteResults (s : Store) (channelID : Int) (pollID : String) :
    Except String (List (String × Nat) × String) :=
  match mapGet s.votes (channelID, pollID) with
  | none => Except.error "vote not found"
  | some vote =>
      let results := buildResults vote
      Except.ok (results, (findWinnerFold results).1)

/-- Service.EndVote (pkg/poll): stamps EndedAt and WinningDish on the vote
record, then clears the channel CurrentVote if it still refers to this
poll.  The vote write precedes the channel read, so a missing channel
record leaves the vote already mutated. -/
def EndVote (s : Store) (channelID : Int) (pollID winningDish : String) (now : Nat) :
    Store × Option String :=
  match mapGet s.votes (channelID, pollID) with
  | none => (s, some "vote not found")
  | some vote =>
      let vote' := { vote with endedAt := now, winningDish := winningDish }
      let s1 : Store := { s with votes := mapSet s.votes (channelID, pollID) vote' }
      match mapGet s1.channels channelID with
      | none => (s1, some "channel not found")
      | some channelState =>
          match channelState.currentVote with
          | some cv =>
              if cv.pollID = pollID then
                let channelState' :=
                  { channelState with currentVote := none, lastActivity := now }
                ({ s1 with channels := mapSet s1.channels channelID channelState' }, none)
              else (s1, none)
          | none => (s1, none)

/-- Service.AddCookVolunteer (pkg/poll): rejects a user whose ballot (the
zero-value read of the votes map) differs from WinningDish whenever at
least one ballot exists; a repeated volunteer is a successful no-op;
otherwise the user is appended to CookVolunteers. -/
def AddCookVolunteer (s : Store) (channelID : Int) (pollID userID : String) :
    Store × Option String :=
  match mapGet s.votes (channelID, pollID) with
  | none => (s, some "vote not found")
  | some vote =>
      if mapGetD vote.votes userID "" ≠ vote.winningDish ∧ vote.votes ≠ [] then
        (s, some "user did not vote for the winning dish")
      else if userID ∈ vote.cookVolunteers then
        (s, none)
      else
        let vote' := { vote with cookVolunteers := vote.cookVolunteers ++ [userID] }
        ({ s with votes := mapSet s.votes (channelID, pollID) vote' }, none)

/-- Service.SelectCook (pkg/poll): rejects a non-volunteer, otherwise sets
SelectedCook. -/
def SelectCook (s : Store) (channelID : Int) (pollID userID : String) :
    Store × Option String :=
  match mapGet s.votes (channelID, pollID) with
  | none => (s, some "vote not found")
  | some vote =>
      if userID ∈ vote.cookVolunteers then
        let vote' := { vote with selectedCook := userID }
        ({ s with votes := mapSet s.votes (channelID, pollID) vote' }, none)
      else
        (s, some "user is not a volunteer")

/-- Service.CheckVoteThreshold (pkg/poll): not-reached for an ended vote;
otherwise threshold is the ceiling of memberCount times thresholdPercent
(float64 math modelled over Rat) and the vote is reached when the ballot
count meets it, with the winner taken from GetVoteResults. -/
def CheckVoteThreshold (s : Store) (channelID : Int) (pollID : String)
    (channelMemberCount : Int) (thresholdPercent : Rat) :
    Except String (Bool × String) :=
  match mapGet s.votes (channelID, pollID) with
  | none => Except.error "vote not found"
  | some vote =>
      if vote.endedAt ≠ 0 then Except.ok (false, "")
      else
        let threshold : Int := Int.ceil ((channelMemberCount : Rat) * thresholdPercent)
        let totalVotes : Int := vote.votes.length
        if totalVotes ≥ threshold then
          match GetVoteResults s channelID pollID with
          | Except.error e => Except.error e
          | Except.ok (_, winningOption) => Except.ok (true, winningOption)
        else Except.ok (false, "")

/-- Service.AddOptionToVote (pkg/poll): fails on an ended vote or on a
duplicate option, leaving the store untouched; otherwise appends the new
option to the option list. -/
def AddOptionToVote (s : Store) (channelID : Int) (pollID newOption : String) :
    Store × Option String :=
  match mapGet s.votes (channelID, pollID) with
  | none => (s, some "failed to get vote")
  | some vote =>
      if vote.endedAt ≠ 0 then
        (s, some "vote has already ended")
      else if newOption ∈ vote.options then
        (s, some ("option already exists: " ++ newOption))
      else
        let vote' := { vote with options := vote.options ++ [newOption] }
        ({ s with votes := mapSet s.votes (channelID, pollID) vote' }, none)

/-- Sum of all recorded ratings, as in the RateDinner loop. -/
def ratingsSum (ratings : List (String × Int)) : Int :=
  (ratings.map Prod.snd).sum

/-- Service.RateDinner (pkg/dinner): overwrites the rating of `userID` and
recomputes AverageRating as the full mean of the ratings map.  The nil-map
initialization in Go coincides with the empty association list. -/
def RateDinner (s : Store) (dinnerID userID : String) (rating : Int) :
    Store × Option String :=
  match mapGet s.dinners dinnerID with
  | none => (s, some "dinner not found")
  | some d =>
      let ratings' := mapSet d.ratings userID rating
      let d' := { d with
        ratings := ratings',
        averageRating := (ratingsSum ratings' : Rat) / (ratings'.length : Rat) }
      ({ s with dinners := mapSet s.dinners dinnerID d' }, none)

/-- Service.FinishDinner (pkg/dinner): requires an active dinner on the
channel, stamps FinishedAt, persists the dinner record under its own key
and clears the channel CurrentDinner. -/
def FinishDinner (s : Store) (channelID : Int) (now : Nat) : Store × Option String :=
  match mapGet s.channels channelID with
  | none => (s, some "channel not found")
  | some channelState =>
      match channelState.currentDinner with
      | none => (s, some "no active dinner")
      | some d =>
          let d' := { d with finishedAt := now }
          let s1 : Store := { s with dinners := mapSet s.dinners d'.id d' }
          let channelState' :=
            { channelState with currentDinner := none, lastActivity := now }
          ({ s1 with channels := mapSet s1.channels channelID channelState' }, none)

/-- Scheduler stopDinnerWorkflow (pkg/scheduler): the Daily Closer body for
one channel.  An unended CurrentVote is force-ended with the winner taken
from the current tally (the text "No winner" when the tally fails), then an
unfinished CurrentDinner, judged from the originally read channel state, is
force-finished.  Messaging to the chat transport is external and dropped
from the model. -/
def stopDinnerWorkflow (s : Store) (channelID : Int) (now : Nat) : Store :=
  match mapGet s.channels channelID with
  | none => s
  | some channelState =>
      let s1 :=
        match channelState.currentVote with
        | some cv =>
            if cv.endedAt = 0 then
              let winningOption :=
                match GetVoteResults s channelID cv.pollID with
                | Except.ok r => r.2
                | Except.error _ => "No winner"
              (EndVote s channelID cv.pollID winningOption now).1
            else s
        | none => s
      match channelState.currentDinner with
      | some d => if d.finishedAt = 0 then (FinishDinner s1 channelID now).1 else s1
      | none => s1

/-- Scheduler restartDinnerWorkflow (pkg/scheduler): for a channel whose
CurrentVote has ended, clears the CurrentVote and invokes
startDinnerWorkflow (dish suggestion, poll creation and CreateVote through
the chat transport and the LLM, which are external to the store model).
The returned Bool records that startDinnerWorkflow was invoked. -/
def restartDinnerWorkflow (s : Store) (channelID : Int) : Store × Bool :=
  match mapGet s.channels channelID with
  | none => (s, false)
  | some channelState =>
      match channelState.currentVote with
      | some cv =>
          if cv.endedAt ≠ 0 then
            let channelState' := { channelState with currentVote := none }
            ({ s with channels := mapSet s.channels channelID channelState' }, true)
          else (s, false)
      | none => (s, false)

/-- One channel of a runCookVolunteerTimeoutChecker tick (pkg/scheduler).
`tr` is the in-memory volunteerWaitStart map from poll ID to the minute the
watchdog first saw the channel waiting; `restarts` accumulates the channels
whose workflow was restarted during this tick.  A channel whose vote has
ended with a nonempty winner and no volunteer is tracked on first sight and
restarted once more than 15 minutes of tracked wait have passed; a channel
whose vote has a volunteer is dropped from tracking. -/
def volunteerCheckChannel (s : Store) (tr : List (String × Nat))
    (restarts : List Int) (channelID : Int) (now : Nat) :
    Store × List (String × Nat) × List Int :=
  match mapGet s.channels channelID with
  | none => (s, tr, restarts)
  | some channelState =>
      match channelState.currentVote with
      | some cv =>
          if cv.endedAt ≠ 0 ∧ cv.winningDish ≠ "" ∧ cv.cookVolunteers = [] then
            match mapGet tr cv.pollID with
            | none => (s, mapSet tr cv.pollID now, restarts)
            | some startTime =>
                if 15 < now - startTime then
                  let tr' := mapDelete tr cv.pollID
                  let r := restartDinnerWorkflow s channelID
                  (r.1, tr', if r.2 then restarts ++ [channelID] else restarts)
                else (s, tr, restarts)
          else if cv.cookVolunteers ≠ [] then
            (s, mapDelete tr cv.pollID, restarts)
          else (s, tr, restarts)
      | none => (s, tr, restarts)

/-- One full tick of runCookVolunteerTimeoutChecker: the channel key list
is read once, then every channel is processed in order. -/
def volunteerTick (s : Store) (tr : List (String × Nat)) (now : Nat) :
    Store × List (String × Nat) × List Int :=
  (s.channels.map Prod.fst).foldl
    (fun acc cid => volunteerCheckChannel acc.1 acc.2.1 acc.2.2 cid now)
    (s, tr, [])

/-- Chat UI modes of pkg/state: StateNormal and StateAddingIngredients. -/
inductive ChatMode where
  | normal
  | addingIngredients
  deriving DecidableEq, Repr

/-- state.ChatState: a mode with the minute of its last write. -/
structure ChatState where
  state : ChatMode
  timestamp : Nat
  deriving DecidableEq, Repr

/-- state.Manager: the in-memory chat-to-state map. -/
structure Manager where
  states : List (Int × ChatState)
  deriving DecidableEq, Repr

/-- Manager.SetState (pkg/state): stores the mode with the current time. -/
def SetState (m : Manager) (chatID : Int) (st : ChatMode) (now : Nat) : Manager :=
  { m with states := mapSet m.states chatID { state := st, timestamp := now } }

/-- Manager.GetState (pkg/state): a read finding an entry written more than
10 minutes ago deletes it and reports the normal mode; a fresh entry is
returned as stored; a missing entry reads as normal.  The returned Manager
is the map after the lazy eviction. -/
def GetState (m : Manager) (chatID : Int) (now : Nat) : ChatMode × Manager :=
  match mapGet m.states chatID with
  | some cs =>
      if 10 < now - cs.timestamp then
        (ChatMode.normal, { m with states := mapDelete m.states chatID })
      else
        (cs.state, m)
  | none => (ChatMode.normal, m)

/-- Manager.ClearState (pkg/state). -/
def ClearState (m : Manager) (chatID : Int) : Manager :=
  { m with states := mapDelete m.states chatID }

/-- Number of recorded ballots naming option `o`. -/
def ballotCount (vote : VoteState) (o : String) : Nat :=
  vote.votes.countP (fun p => p.2 = o)

/-- Number of users whose last recorded ballot is `o`. -/
def lastBallotUsers (vote : VoteState) (o : String) : Nat :=
  (keysOf vote.votes).countP (fun u => mapGet vote.votes u = some o)

theorem lastBallotUsers_eq_ballotCount (vote : VoteState) (o : String)
    (hnd : (keysOf vote.votes).Nodup) : lastBallotUsers vote o = ballotCount vote o := by
  unfold lastBallotUsers ballotCount
  generalize vote.votes = votes at hnd ⊢
  induction votes with
  | nil => simp
  | cons p rest ih =>
      obtain ⟨a, b⟩ := p
      have hnd1 : a ∉ keysOf rest := (List.nodup_cons.mp (by simpa using hnd)).1
      have hnd2 : (keysOf rest).Nodup := (List.nodup_cons.mp (by simpa using hnd)).2
      have hcongr :
          (keysOf rest).countP (fun u => decide (mapGet ((a, b) :: rest) u = some o))
            = (keysOf rest).countP (fun u => decide (mapGet rest u = some o)) := by
        apply List.countP_congr
        intro u hu
        have hau : ¬ a = u := fun h => hnd1 (h ▸ hu)
        simp [mapGet, hau]
      simp only [keysOf_cons, List.countP_cons, hcongr, ih hnd2]
      simp [mapGet]

theorem mapGet_initResults (options : List String) (m0 : List (String × Nat)) (k : String) :
    mapGet (options.foldl (fun m o => mapSet m o 0) m0) k
      = if k ∈ options then some 0 else mapGet m0 k := by
  induction options generalizing m0 with
  | nil => simp
  | cons o rest ih =>
      by_cases hk : k ∈ rest
      · simp [List.foldl_cons, ih, hk]
      · by_cases hko : k = o
        · subst hko
          simp [List.foldl_cons, ih, hk, mapGet_mapSet_self]
        · simp [List.foldl_cons, ih, hk, hko, mapGet_mapSet_ne _ _ _ _ hko]

theorem keysOf_nodup_initResults (options : List String) (m0 : List (String × Nat))
    (h : (keysOf m0).Nodup) :
    (keysOf (options.foldl (fun m o => mapSet m o 0) m0)).Nodup := by
  induction options generalizing m0 with
  | nil => exact h
  | cons o rest ih => exact ih _ (keysOf_nodup_mapSet _ _ _ h)

theorem mapGet_countFold_some (votes : List (String × String))
    (m0 : List (String × Nat)) (k : String) (c : Nat) (h : mapGet m0 k = some c) :
    mapGet (votes.foldl (fun m p => mapSet m p.2 (mapGetD m p.2 0 + 1)) m0) k
      = some (c + votes.countP (fun p => p.2 = k)) := by
  induction votes generalizing m0 c with
  | nil => simpa using h
  | cons p rest ih =>
      by_cases hpk : p.2 = k
      · have hd : mapGetD m0 p.2 0 = c := by simp [mapGetD, hpk, h]
        have h1 : mapGet (mapSet m0 p.2 (mapGetD m0 p.2 0 + 1)) k = some (c + 1) := by
          rw [hd, hpk]
          exact mapGet_mapSet_self _ _ _
        rw [List.foldl_cons, ih _ _ h1]
        simp [List.countP_cons, hpk]
        omega
      · have hkp : k ≠ p.2 := fun hh => hpk hh.symm
        have h1 : mapGet (mapSet m0 p.2 (mapGetD m0 p.2 0 + 1)) k = some c := by
          rw [mapGet_mapSet_ne _ _ _ _ hkp]
          exact h
        rw [List.foldl_cons, ih _ _ h1]
        simp [List.countP_cons, hpk]

theorem mapGet_countFold_none (votes : List (String × String))
    (m0 : List (String × Nat)) (k : String) (h : mapGet m0 k = none) :
    mapGet (votes.foldl (fun m p => mapSet m p.2 (mapGetD m p.2 0 + 1)) m0) k
      = if votes.countP (fun p => p.2 = k) = 0 then none
        else some (votes.countP (fun p => p.2 = k)) := by
  induction votes generalizing m0 with
  | nil => simpa using h
  | cons p rest ih =>
      by_cases hpk : p.2 = k
      · have hd : mapGetD m0 p.2 0 = 0 := by simp [mapGetD, hpk, h]
        have h1 : mapGet (mapSet m0 p.2 (mapGetD m0 p.2 0 + 1)) k = some 1 := by
          rw [hd, hpk]
          exact mapGet_mapSet_self _ _ _
        rw [List.foldl_cons, mapGet_countFold_some _ _ _ _ h1]
        simp [List.countP_cons, hpk]
        omega
      · have hkp : k ≠ p.2 := fun hh => hpk hh.symm
        have h1 : mapGet (mapSet m0 p.2 (mapGetD m0 p.2 0 + 1)) k = none := by
          rw [mapGet_mapSet_ne _ _ _ _ hkp]
          exact h
        rw [List.foldl_cons, ih _ h1]
        have hcnt : List.countP (fun q => decide (q.2 = k)) (p :: rest)
            = List.countP (fun q => decide (q.2 = k)) rest := by
          simp [List.countP_cons, hpk]
        rw [hcnt]

theorem keysOf_nodup_countFold (votes : List (String × String))
    (m0 : List (String × Nat)) (h : (keysOf m0).Nodup) :
    (keysOf (votes.foldl (fun m p => mapSet m p.2 (mapGetD m p.2 0 + 1)) m0)).Nodup := by
  induction votes generalizing m0 with
  | nil => exact h
  | cons p rest ih => exact ih _ (keysOf_nodup_mapSet _ _ _ h)

/-- Master description of the results map: an option is present with its
ballot count; any other key is present exactly when some ballot names it,
again with its ballot count. -/
theorem mapGet_buildResults (vote : VoteState) (k : String) :
    mapGet (buildResults vote) k
      = if k ∈ vote.options ∨ 0 < ballotCount vote k
        then some (ballotCount vote k) else none := by
  unfold buildResults ballotCount
  by_cases hk : k ∈ vote.options
  · have hinit : mapGet (vote.options.foldl (fun m o => mapSet m o 0) []) k = some 0 := by
      rw [mapGet_initResults]
      simp [hk]
    rw [mapGet_countFold_some _ _ _ _ hinit]
    simp [hk]
  · have hinit : mapGet (vote.options.foldl (fun m o => mapSet m o 0) []) k = none := by
      rw [mapGet_initResults]
      simp [hk]
    rw [mapGet_countFold_none _ _ _ hinit]
    rcases Nat.eq_zero_or_pos (vote.votes.countP (fun p => p.2 = k)) with h0 | h0
    · simp [h0, hk]
    · simp [Nat.pos_iff_ne_zero.mp h0, hk, h0]

theorem keysOf_nodup_buildResults (vote : VoteState) :
    (keysOf (buildResults vote)).Nodup := by
  unfold buildResults
  exact keysOf_nodup_countFold _ _ (keysOf_nodup_initResults _ _ (by simp))

theorem mem_buildResults_of_option (vote : VoteState) (o : String)
    (ho : o ∈ vote.options) : (o, ballotCount vote o) ∈ buildResults vote := by
  apply mem_of_mapGet_eq_some
  rw [mapGet_buildResults]
  simp [ho]

theorem buildResults_entry (vote : VoteState) (e : String × Nat)
    (he : e ∈ buildResults vote) :
    e.2 = ballotCount vote e.1 ∧ (e.1 ∈ vote.options ∨ 0 < ballotCount vote e.1) := by
  have hget : mapGet (buildResults vote) e.1 = some e.2 :=
    mapGet_eq_some_of_mem _ _ _ (keysOf_nodup_buildResults vote)
      (by cases e; exact he)
  rw [mapGet_buildResults] at hget
  by_cases hc : e.1 ∈ vote.options ∨ 0 < ballotCount vote e.1
  · rw [if_pos hc] at hget
    exact ⟨(Option.some.injEq .. ▸ hget).symm, hc⟩
  · rw [if_neg hc] at hget
    exact absurd hget (by simp)

theorem findWinnerFold_keep (l : List (String × Nat)) (acc : String × Nat)
    (h : ∀ e ∈ l, e.2 ≤ acc.2) :
    l.foldl (fun a e => if e.2 > a.2 then e else a) acc = acc := by
  induction l with
  | nil => rfl
  | cons e rest ih =>
      have he : ¬ e.2 > acc.2 := not_lt.mpr (h e (List.mem_cons_self _ _))
      rw [List.foldl_cons, if_neg he]
      exact ih (fun e' h' => h e' (List.mem_cons_of_mem _ h'))

/-- The scan of findWinnerFold returns the unique entry whose count
strictly dominates all other entries, for any iteration order, provided
the running maximum starts below that count. -/
theorem findWinnerFold_max (l : List (String × Nat)) (o : String) (c : Nat) :
    ∀ (acc : String × Nat), (o, c) ∈ l → (keysOf l).Nodup →
    (∀ e ∈ l, e.1 ≠ o → e.2 < c) → acc.2 < c →
    l.foldl (fun a e => if e.2 > a.2 then e else a) acc = (o, c) := by
  induction l with
  | nil => intro acc hmem _ _ _; simp at hmem
  | cons e rest ih =>
      intro acc hmem hnd hmax hacc
      have hnd1 : e.1 ∉ keysOf rest := (List.nodup_cons.mp (by simpa [keysOf] using hnd)).1
      have hnd2 : (keysOf rest).Nodup := (List.nodup_cons.mp (by simpa [keysOf] using hnd)).2
      by_cases heo : e.1 = o
      · have he : e = (o, c) := by
          rcases List.mem_cons.mp hmem with h | h
          · exact h.symm
          · exact absurd (heo ▸ List.mem_map.mpr ⟨(o, c), h, rfl⟩) hnd1
        subst he
        rw [List.foldl_cons, if_pos (by simpa using hacc)]
        apply findWinnerFold_keep
        intro e' he'
        have hne : e'.1 ≠ o := by
          intro hh
          have hmem2 : e'.1 ∈ keysOf rest := List.mem_map.mpr ⟨e', he', rfl⟩
          exact hnd1 (hh ▸ hmem2)
        exact le_of_lt (hmax e' (List.mem_cons_of_mem _ he') hne)
      · have hec : e.2 < c := hmax e (List.mem_cons_self _ _) heo
        have hmem' : (o, c) ∈ rest := by
          rcases List.mem_cons.mp hmem with h | h
          · exact absurd (congrArg Prod.fst h.symm) heo
          · exact h
        rw [List.foldl_cons]
        by_cases hstep : e.2 > acc.2
        · rw [if_pos hstep]
          exact ih e hmem' hnd2 (fun e' h' hne => hmax e' (List.mem_cons_of_mem _ h') hne) hec
        · rw [if_neg hstep]
          exact ih acc hmem' hnd2 (fun e' h' hne => hmax e' (List.mem_cons_of_mem _ h') hne) hacc

/-- C1: CheckVoteThreshold returns not-reached whenever the vote has
already ended; for an open vote it computes the threshold as the ceiling
of memberCount times the threshold fraction and reports reached exactly
when the number of recorded ballots meets it, taking the winner from
GetVoteResults; so for a monotonically growing ballot set with fixed
memberCount and fraction it is never reached below the threshold and
always reached from that point on while the vote is open. -/
theorem checkVoteThreshold_quorum (s : Store) (channelID : Int) (pollID : String)
    (vote : VoteState) (memberCount : Int) (thresholdPercent : Rat)
    (hv : mapGet s.votes (channelID, pollID) = some vote) :
    (vote.endedAt ≠ 0 →
       CheckVoteThreshold s channelID pollID memberCount thresholdPercent
         = Except.ok (false, "")) ∧
    (vote.endedAt = 0 →
       ((vote.votes.length : Int) < Int.ceil ((memberCount : Rat) * thresholdPercent) →
          CheckVoteThreshold s channelID pollID memberCount thresholdPercent
            = Except.ok (false, "")) ∧
       ((vote.votes.length : Int) ≥ Int.ceil ((memberCount : Rat) * thresholdPercent) →
          CheckVoteThreshold s channelID pollID memberCount thresholdPercent
            = Except.ok (true, (findWinnerFold (buildResults vote)).1))) := by
  refine ⟨fun hend => ?_, fun hopen => ⟨fun hlt => ?_, fun hge => ?_⟩⟩
  · simp [CheckVoteThreshold, hv, hend]
  · simp [CheckVoteThreshold, hv, hopen, not_le.mpr hlt]
  · simp [CheckVoteThreshold, GetVoteResults, hv, hopen, hge]

def voteC1 : VoteState :=
  { pollID := "p1", messageID := 1, options := ["A", "B"],
    votes := [("U1", "A"), ("U2", "A")], startedAt := 1, endedAt := 0,
    winningDish := "", cookVolunteers := [], selectedCook := "" }

def storeC1 : Store :=
  { votes := [((1, "p1"), voteC1)], channels := [], dinners := [], pollMapping := [] }

/-- Witness for C1: memberCount 3 with fraction 2/3 gives threshold 2, and
two recorded ballots reach the quorum with winner A. -/
theorem checkVoteThreshold_quorum_witness :
    CheckVoteThreshold storeC1 1 "p1" 3 (2 / 3) = Except.ok (true, "A") := by
  have h := checkVoteThreshold_quorum storeC1 1 "p1" voteC1 3 (2 / 3) rfl
  have hge : ((voteC1.votes.length : Int) ≥ Int.ceil ((3 : Int) * (2 / 3 : Rat))) := by
    norm_num [voteC1]
  have h2 := (h.2 rfl).2 (by exact_mod_cast hge)
  rw [h2]
  rfl

theorem filter_eq_nil_of_not_mem_keys {α β : Type} [DecidableEq α]
    (m : List (α × β)) (k : α) (h : k ∉ keysOf m) :
    m.filter (fun p => p.1 = k) = [] := by
  induction m with
  | nil => rfl
  | cons p rest ih =>
      obtain ⟨a, b⟩ := p
      have h1 : ¬ a = k := fun hh => h (by simp [hh])
      have h2 : k ∉ keysOf rest := fun hh => h (by simp [hh])
      simp [List.filter_cons, h1, ih h2]

theorem filter_mapSet {α β : Type} [DecidableEq α]
    (m : List (α × β)) (k : α) (v : β) (hnd : (keysOf m).Nodup) :
    (mapSet m k v).filter (fun p => p.1 = k) = [(k, v)] := by
  induction m with
  | nil => simp [mapSet, List.filter_cons]
  | cons p rest ih =>
      obtain ⟨a, b⟩ := p
      have hnd1 : a ∉ keysOf rest := (List.nodup_cons.mp (by simpa using hnd)).1
      have hnd2 : (keysOf rest).Nodup := (List.nodup_cons.mp (by simpa using hnd)).2
      by_cases ha : a = k
      · subst ha
        simp [mapSet, List.filter_cons, filter_eq_nil_of_not_mem_keys rest a hnd1]
      · simp [mapSet, ha, List.filter_cons, ih hnd2]

/-- Success equation of RecordVote: a valid option rewrites the single vote
record in place. -/
theorem recordVote_ok (s : Store) (channelID : Int)
    (pollID userID optionChoice : String) (vote : VoteState)
    (hv : mapGet s.votes (channelID, pollID) = some vote)
    (h : optionChoice ∈ vote.options) :
    RecordVote s channelID pollID userID optionChoice
      = ({ s with
           votes :=
             mapSet s.votes (channelID, pollID)
               ({ vote with votes := mapSet vote.votes userID optionChoice }) },
         none) := by
  simp [RecordVote, hv, h]

/-- C3: RecordVote fails with an invalid-option error exactly when the
option is not in the option list, leaving the store untouched in that
case; a valid option overwrites the ballot of the user; and a ballot
sequence A then B for one user leaves exactly one ballot B for that user
while never modifying endedAt or the option list. -/
theorem recordVote_spec (s : Store) (channelID : Int)
    (pollID userID optionChoice : String) (vote : VoteState)
    (hv : mapGet s.votes (channelID, pollID) = some vote) :
    (optionChoice ∉ vote.options →
       RecordVote s channelID pollID userID optionChoice
         = (s, some ("invalid option: " ++ optionChoice))) ∧
    (optionChoice ∈ vote.options →
       RecordVote s channelID pollID userID optionChoice
         = ({ s with
              votes :=
                mapSet s.votes (channelID, pollID)
                  ({ vote with votes := mapSet vote.votes userID optionChoice }) },
            none) ∧
       mapGet (mapSet vote.votes userID optionChoice) userID = some optionChoice) ∧
    (∀ o1 o2, o1 ∈ vote.options → o2 ∈ vote.options →
       (keysOf vote.votes).Nodup →
       ∃ vote2,
         mapGet (RecordVote (RecordVote s channelID pollID userID o1).1
             channelID pollID userID o2).1.votes (channelID, pollID) = some vote2 ∧
         mapGet vote2.votes userID = some o2 ∧
         vote2.votes.filter (fun p => p.1 = userID) = [(userID, o2)] ∧
         vote2.endedAt = vote.endedAt ∧ vote2.options = vote.options) := by
  refine ⟨fun hno => ?_, fun hyes => ⟨?_, ?_⟩, fun o1 o2 h1 h2 hnd => ?_⟩
  · simp [RecordVote, hv, hno]
  · exact recordVote_ok s channelID pollID userID optionChoice vote hv hyes
  · exact mapGet_mapSet_self _ _ _
  · have e1 := recordVote_ok s channelID pollID userID o1 vote hv h1
    have hv1 : mapGet (RecordVote s channelID pollID userID o1).1.votes
        (channelID, pollID)
        = some ({ vote with votes := mapSet vote.votes userID o1 }) := by
      rw [e1]
      exact mapGet_mapSet_self _ _ _
    have e2 := recordVote_ok (RecordVote s channelID pollID userID o1).1
      channelID pollID userID o2
      ({ vote with votes := mapSet vote.votes userID o1 }) hv1 h2
    refine ⟨{ vote with votes := mapSet (mapSet vote.votes userID o1) userID o2 },
      ?_, mapGet_mapSet_self _ _ _, ?_, rfl, rfl⟩
    · rw [e2]
      exact mapGet_mapSet_self _ _ _
    · exact filter_mapSet _ _ _ (keysOf_nodup_mapSet _ _ _ hnd)

/-- C2 (amended): the results map of GetVoteResults contains every option,
zero-ballot options included, each mapped to the number of users whose
last recorded ballot names it; and whenever one option has at least one
ballot and its count is strictly greater than the count of every other
option, the winner returned is that option, for every map iteration
order.  (Amendment: the original claim omitted the positivity proviso;
with zero ballots the scan never replaces its empty-string seed.) -/
theorem getVoteResults_spec (s : Store) (channelID : Int) (pollID : String)
    (vote : VoteState) (hv : mapGet s.votes (channelID, pollID) = some vote)
    (hnd : (keysOf vote.votes).Nodup)
    (hvals : ∀ p ∈ vote.votes, p.2 ∈ vote.options) :
    GetVoteResults s channelID pollID
      = Except.ok (buildResults vote, (findWinnerFold (buildResults vote)).1) ∧
    (∀ o ∈ vote.options, mapGet (buildResults vote) o = some (lastBallotUsers vote o)) ∧
    (∀ o ∈ vote.options, 0 < ballotCount vote o →
       (∀ o2 ∈ vote.options, o2 ≠ o → ballotCount vote o2 < ballotCount vote o) →
       (∀ order, order.Perm (buildResults vote) → (findWinnerFold order).1 = o) ∧
       GetVoteResults s channelID pollID = Except.ok (buildResults vote, o)) := by
  have hbase : GetVoteResults s channelID pollID
      = Except.ok (buildResults vote, (findWinnerFold (buildResults vote)).1) := by
    simp [GetVoteResults, hv]
  refine ⟨hbase, fun o ho => ?_, fun o ho hpos hmax => ?_⟩
  · rw [mapGet_buildResults, lastBallotUsers_eq_ballotCount vote o hnd]
    simp [ho]
  · have hwin : ∀ order, order.Perm (buildResults vote) →
        (findWinnerFold order).1 = o := by
      intro order hperm
      have hfold : order.foldl (fun a e => if e.2 > a.2 then e else a) ("", 0)
          = (o, ballotCount vote o) := by
        apply findWinnerFold_max
        · exact hperm.mem_iff.mpr (mem_buildResults_of_option vote o ho)
        · have hmapperm : (keysOf order).Perm (keysOf (buildResults vote)) :=
            hperm.map Prod.fst
          exact hmapperm.nodup_iff.mpr (keysOf_nodup_buildResults vote)
        · intro e he hne
          have heb : e ∈ buildResults vote := hperm.subset he
          obtain ⟨hval, hcase⟩ := buildResults_entry vote e heb
          have hopt : e.1 ∈ vote.options := by
            rcases hcase with h1 | h1
            · exact h1
            · obtain ⟨p, hp, hpe⟩ := List.countP_pos_iff.mp h1
              have hpe2 : p.2 = e.1 := of_decide_eq_true hpe
              exact hpe2 ▸ hvals p hp
          rw [hval]
          exact hmax e.1 hopt hne
        · exact hpos
      rw [findWinnerFold, hfold]
    refine ⟨hwin, ?_⟩
    rw [hbase, hwin (buildResults vote) (List.Perm.refl _)]

def voteC2x : VoteState :=
  { pollID := "p", messageID := 0, options := ["A"], votes := [],
    startedAt := 1, endedAt := 0, winningDish := "",
    cookVolunteers := [], selectedCook := "" }

def storeC2x : Store :=
  { votes := [((1, "p"), voteC2x)], channels := [], dinners := [], pollMapping := [] }

/-- C2 counterexample: with the single option A and no ballots, the count
of A (zero) is strictly greater than the count of every other option
(vacuously, there being none), yet the winner returned is the empty
string, not A. -/
theorem getVoteResults_winner_counterexample :
    ("A" ∈ voteC2x.options) ∧
    (∀ o ∈ voteC2x.options, o ≠ "A" → ballotCount voteC2x o < ballotCount voteC2x "A") ∧
    GetVoteResults storeC2x 1 "p" = Except.ok ([("A", 0)], "") ∧
    ("" : String) ≠ "A" := by
  exact ⟨by decide, by decide, rfl, by decide⟩

def voteC2 : VoteState :=
  { pollID := "p", messageID := 0, options := ["A", "B"],
    votes := [("U1", "A"), ("U2", "A"), ("U3", "B")],
    startedAt := 1, endedAt := 0, winningDish := "",
    cookVolunteers := [], selectedCook := "" }

def storeC2 : Store :=
  { votes := [((1, "p"), voteC2)], channels := [], dinners := [], pollMapping := [] }

/-- Witness for C2: ballots U1 to A, U2 to A, U3 to B over options A and B
tally to 2 and 1 with winner A. -/
theorem getVoteResults_spec_witness :
    GetVoteResults storeC2 1 "p" = Except.ok ([("A", 2), ("B", 1)], "A") := by
  have h := getVoteResults_spec storeC2 1 "p" voteC2 rfl (by decide) (by decide)
  have h3 := (h.2.2 "A" (by decide) (by decide) (by decide)).2
  rw [h3]
  rfl

def voteC4 : VoteState :=
  { pollID := "p", messageID := 0, options := ["A"], votes := [],
    startedAt := 1, endedAt := 9, winningDish := "A",
    cookVolunteers := [], selectedCook := "" }

def storeC4 : Store :=
  { votes := [((1, "p"), voteC4)], channels := [], dinners := [], pollMapping := [] }

/-- C4 counterexample: RecordVote has no endedAt guard, so it succeeds on
a vote that has already ended and changes its ballot mapping. -/
theorem endedVote_mutable_counterexample :
    voteC4.endedAt ≠ 0 ∧
    (RecordVote storeC4 1 "p" "U1" "A").2 = none ∧
    mapGet (RecordVote storeC4 1 "p" "U1" "A").1.votes (1, "p")
      = some ({ voteC4 with votes := [("U1", "A")] }) ∧
    [(("U1" : String), ("A" : String))] ≠ voteC4.votes := by
  exact ⟨by decide, rfl, rfl, by decide⟩

/-- C4 (amended): once a vote has ended its option list is immutable —
AddOptionToVote fails with the already-ended error and leaves the store
untouched — and RecordVote preserves endedAt, options, cookVolunteers and
selectedCook; however RecordVote has no endedAt guard, so the ballots of
an ended vote can still be overwritten (see the counterexample). -/
theorem endedVote_immutability_amended (s : Store) (channelID : Int)
    (pollID : String) (vote : VoteState)
    (hv : mapGet s.votes (channelID, pollID) = some vote)
    (hend : vote.endedAt ≠ 0) :
    (∀ newOption, AddOptionToVote s channelID pollID newOption
        = (s, some "vote has already ended")) ∧
    (∀ userID optionChoice v2,
       mapGet (RecordVote s channelID pollID userID optionChoice).1.votes
           (channelID, pollID) = some v2 →
       v2.endedAt = vote.endedAt ∧ v2.options = vote.options ∧
       v2.cookVolunteers = vote.cookVolunteers ∧
       v2.selectedCook = vote.selectedCook) := by
  constructor
  · intro newOption
    simp [AddOptionToVote, hv, hend]
  · intro userID optionChoice v2 h2
    by_cases hmem : optionChoice ∈ vote.options
    · rw [recordVote_ok s channelID pollID userID optionChoice vote hv hmem] at h2
      rw [mapGet_mapSet_self] at h2
      injection h2 with h2
      subst h2
      exact ⟨rfl, rfl, rfl, rfl⟩
    · have herr : RecordVote s channelID pollID userID optionChoice
          = (s, some ("invalid option: " ++ optionChoice)) := by
        simp [RecordVote, hv, hmem]
      rw [herr] at h2
      rw [hv] at h2
      injection h2 with h2
      subst h2
      exact ⟨rfl, rfl, rfl, rfl⟩

def emptyStore : Store :=
  { votes := [], channels := [], dinners := [], pollMapping := [] }

/-- C5 counterexample: CreateVote performs no validation of the options
list: called with an empty list it does not fail, it persists the vote and
publishes it as the channel currentVote, creating the channel state. -/
theorem createVote_emptyOptions_counterexample :
    (CreateVote emptyStore 1 "p" 0 [] 5).1.options = [] ∧
    mapGet (CreateVote emptyStore 1 "p" 0 [] 5).2.votes (1, "p")
      = some (CreateVote emptyStore 1 "p" 0 [] 5).1 ∧
    mapGet (CreateVote emptyStore 1 "p" 0 [] 5).2.channels 1
      = some { channelID := 1, fridgeID := "fridge:1", currentDinner := none,
               currentVote := some (CreateVote emptyStore 1 "p" 0 [] 5).1,
               lastActivity := 5, cuisines := [], memberCount := 0 } := by
  exact ⟨rfl, rfl, rfl⟩

/-- C5 (amended): CreateVote accepts any options list, the empty list
included; it persists a fresh VoteState with an empty ballot mapping, the
given options and a zero endedAt, and publishes it as the channel
currentVote with lastActivity set to now, creating the channel state when
the store has none. -/
theorem createVote_spec (s : Store) (channelID : Int) (pollID : String)
    (messageID : Int) (options : List String) (now : Nat) :
    (CreateVote s channelID pollID messageID options now).1.votes = [] ∧
    (CreateVote s channelID pollID messageID options now).1.options = options ∧
    (CreateVote s channelID pollID messageID options now).1.endedAt = 0 ∧
    (CreateVote s channelID pollID messageID options now).1.pollID = pollID ∧
    mapGet (CreateVote s channelID pollID messageID options now).2.votes
        (channelID, pollID)
      = some (CreateVote s channelID pollID messageID options now).1 ∧
    (∃ cs, mapGet (CreateVote s channelID pollID messageID options now).2.channels
          channelID = some cs ∧
       cs.currentVote = some (CreateVote s channelID pollID messageID options now).1 ∧
       cs.lastActivity = now ∧
       (mapGet s.channels channelID = none → cs.channelID = channelID)) := by
  refine ⟨rfl, rfl, rfl, rfl, mapGet_mapSet_self _ _ _, ?_⟩
  simp only [CreateVote]
  cases hch : mapGet s.channels channelID with
  | none =>
      exact ⟨{ channelID := channelID,
               fridgeID := "fridge:" ++ toString channelID,
               currentDinner := none,
               currentVote := some ⟨pollID, messageID, options, [], now, 0, "", [], ""⟩,
               lastActivity := now, cuisines := [], memberCount := 0 },
             mapGet_mapSet_self _ _ _, rfl, rfl, fun _ => rfl⟩
  | some cs0 =>
      exact ⟨{ cs0 with
               currentVote := some ⟨pollID, messageID, options, [], now, 0, "", [], ""⟩,
               lastActivity := now },
             mapGet_mapSet_self _ _ _, rfl, rfl,
             fun h0 => Option.noConfusion h0⟩

/-- Witness for C3: on the three-ballot store, recording B for a fresh
user succeeds by overwriting that user's entry, and the recorded entry
reads back as B. -/
theorem recordVote_spec_witness :
    RecordVote storeC2 1 "p" "U9" "B"
      = ({ storeC2 with
           votes :=
             mapSet storeC2.votes (1, "p")
               ({ voteC2 with votes := mapSet voteC2.votes "U9" "B" }) },
         none) ∧
    mapGet (mapSet voteC2.votes "U9" "B") "U9" = some "B" := by
  exact (recordVote_spec storeC2 1 "p" "U9" "B" voteC2 rfl).2.1 (by decide)

/-- Witness for C4: on the ended vote, adding an option fails with the
already-ended error, and the ballot recorded by RecordVote leaves endedAt
untouched. -/
theorem endedVote_immutability_witness :
    AddOptionToVote storeC4 1 "p" "C" = (storeC4, some "vote has already ended") ∧
    ({ voteC4 with votes := [("U1", "A")] }).endedAt = voteC4.endedAt := by
  have h := endedVote_immutability_amended storeC4 1 "p" voteC4 rfl (by decide)
  exact ⟨h.1 "C", (h.2 "U1" "A" ({ voteC4 with votes := [("U1", "A")] }) rfl).1⟩

/-- C6: AddCookVolunteer fails for a user whose recorded ballot differs
from the winning dish (a recorded ballot implies at least one ballot
exists); when the ballot mapping is empty any user volunteers
successfully; and volunteering is idempotent — after a successful call the
same call is a successful no-op, and a user not previously volunteering
ends up in cookVolunteers exactly once. -/
theorem addCookVolunteer_spec (s : Store) (channelID : Int)
    (pollID userID : String) (vote : VoteState)
    (hv : mapGet s.votes (channelID, pollID) = some vote) :
    (∀ b, mapGet vote.votes userID = some b → b ≠ vote.winningDish →
       AddCookVolunteer s channelID pollID userID
         = (s, some "user did not vote for the winning dish")) ∧
    (vote.votes = [] → (AddCookVolunteer s channelID pollID userID).2 = none) ∧
    (∀ s1, AddCookVolunteer s channelID pollID userID = (s1, none) →
       AddCookVolunteer s1 channelID pollID userID = (s1, none) ∧
       (userID ∉ vote.cookVolunteers →
          ∃ v1, mapGet s1.votes (channelID, pollID) = some v1 ∧
            v1.cookVolunteers.count userID = 1)) := by
  refine ⟨fun b hb hbne => ?_, fun hempty => ?_, fun s1 h1 => ?_⟩
  · have hne : vote.votes ≠ [] := by
      intro h0
      rw [h0] at hb
      simp [mapGet] at hb
    have hcond : mapGetD vote.votes userID "" ≠ vote.winningDish ∧ vote.votes ≠ [] := by
      refine ⟨?_, hne⟩
      simp [mapGetD, hb]
      exact hbne
    simp [AddCookVolunteer, hv, hcond]
  · by_cases hmem : userID ∈ vote.cookVolunteers
    · simp [AddCookVolunteer, hv, hempty, hmem]
    · simp [AddCookVolunteer, hv, hempty, hmem]
  · by_cases hcond : mapGetD vote.votes userID "" ≠ vote.winningDish ∧ vote.votes ≠ []
    · rw [show AddCookVolunteer s channelID pollID userID
          = (s, some "user did not vote for the winning dish") by
            simp [AddCookVolunteer, hv, hcond]] at h1
      exact absurd (congrArg Prod.snd h1) (by simp)
    · by_cases hmem : userID ∈ vote.cookVolunteers
      · have he : AddCookVolunteer s channelID pollID userID = (s, none) := by
          simp [AddCookVolunteer, hv, hcond, hmem]
        have hs1 : s1 = s := (congrArg Prod.fst (he.symm.trans h1)).symm
        subst hs1
        exact ⟨he, fun habs => absurd hmem habs⟩
      · have he : AddCookVolunteer s channelID pollID userID
            = ({ s with
                 votes :=
                   mapSet s.votes (channelID, pollID)
                     ({ vote with
                        cookVolunteers := vote.cookVolunteers ++ [userID] }) },
               none) := by
          simp [AddCookVolunteer, hv, hcond, hmem]
        have hs1 : s1 = { s with
            votes :=
              mapSet s.votes (channelID, pollID)
                ({ vote with cookVolunteers := vote.cookVolunteers ++ [userID] }) } :=
          (congrArg Prod.fst (he.symm.trans h1)).symm
        subst hs1
        have hv1 : mapGet (mapSet s.votes (channelID, pollID)
              ({ vote with cookVolunteers := vote.cookVolunteers ++ [userID] }))
            (channelID, pollID)
            = some ({ vote with cookVolunteers := vote.cookVolunteers ++ [userID] }) :=
          mapGet_mapSet_self _ _ _
        have hmem2 : userID ∈ vote.cookVolunteers ++ [userID] := by
          simp
        constructor
        · simp [AddCookVolunteer, hv1, hcond, hmem2]
        · intro hni
          refine ⟨_, hv1, ?_⟩
          simp [List.count_append, List.count_eq_zero.mpr hni]
  
def voteC6 : VoteState :=
  { pollID := "p", messageID := 0, options := ["A"], votes := [],
    startedAt := 1, endedAt := 9, winningDish := "A",
    cookVolunteers := [], selectedCook := "" }

def storeC6 : Store :=
  { votes := [((1, "p"), voteC6)], channels := [], dinners := [], pollMapping := [] }

/-- Witness for C6: on an ended vote with no ballots, U1 volunteers
successfully and volunteering again is a no-op leaving one entry. -/
theorem addCookVolunteer_spec_witness :
    (AddCookVolunteer storeC6 1 "p" "U1").2 = none ∧
    AddCookVolunteer (AddCookVolunteer storeC6 1 "p" "U1").1 1 "p" "U1"
      = ((AddCookVolunteer storeC6 1 "p" "U1").1, none) ∧
    mapGet (AddCookVolunteer storeC6 1 "p" "U1").1.votes (1, "p")
      = some ({ voteC6 with cookVolunteers := ["U1"] }) ∧
    (["U1"] : List String).count "U1" = 1 := by
  have h := addCookVolunteer_spec storeC6 1 "p" "U1" voteC6 rfl
  have h1 : AddCookVolunteer storeC6 1 "p" "U1"
      = ((AddCookVolunteer storeC6 1 "p" "U1").1, none) := rfl
  exact ⟨h.2.1 rfl, (h.2.2 _ h1).1, rfl, by decide⟩

/-- C8: RateDinner overwrites the rating of the given user and recomputes
averageRating as the full arithmetic mean of all current ratings. -/
theorem rateDinner_spec (s : Store) (dinnerID userID : String) (rating : Int)
    (d : Dinner) (hd : mapGet s.dinners dinnerID = some d) :
    RateDinner s dinnerID userID rating
      = ({ s with
           dinners :=
             mapSet s.dinners dinnerID
               ({ d with
                  ratings := mapSet d.ratings userID rating,
                  averageRating :=
                    (ratingsSum (mapSet d.ratings userID rating) : Rat)
                      / ((mapSet d.ratings userID rating).length : Rat) }) },
         none) ∧
    mapGet (mapSet d.ratings userID rating) userID = some rating := by
  constructor
  · simp [RateDinner, hd]
  · exact mapGet_mapSet_self _ _ _

def dinnerC8 : Dinner :=
  { id := "d", channelID := 1, dish := ⟨"Borscht", "ukrainian", [], []⟩,
    cook := "U1", startedAt := 1, finishedAt := 0, ratings := [],
    averageRating := 0, usedIngredients := [] }

def storeC8 : Store :=
  { votes := [], channels := [], dinners := [("d", dinnerC8)], pollMapping := [] }

def storeC8b : Store := (RateDinner (RateDinner storeC8 "d" "U1" 4).1 "d" "U2" 5).1

/-- Witness for C8: ratings U1 at 4 and U2 at 5 average to 9/2; U1
re-rating to 2 overwrites and the mean becomes 7/2. -/
theorem rateDinner_spec_witness :
    mapGet storeC8b.dinners "d"
      = some ({ dinnerC8 with
                ratings := [("U1", 4), ("U2", 5)],
                averageRating := 9 / 2 }) ∧
    (RateDinner storeC8b "d" "U1" 2).2 = none ∧
    mapGet (RateDinner storeC8b "d" "U1" 2).1.dinners "d"
      = some ({ dinnerC8 with
                ratings := [("U1", 2), ("U2", 5)],
                averageRating := 7 / 2 }) := by
  have e0 : mapGet storeC8b.dinners "d"
      = some ({ dinnerC8 with
                ratings := [("U1", 4), ("U2", 5)],
                averageRating := ((9 : Int) : Rat) / ((2 : Nat) : Rat) }) := rfl
  have havg : ((9 : Int) : Rat) / ((2 : Nat) : Rat) = 9 / 2 := by norm_num
  have e0q : mapGet storeC8b.dinners "d"
      = some ({ dinnerC8 with
                ratings := [("U1", 4), ("U2", 5)],
                averageRating := 9 / 2 }) := by rw [e0, havg]
  have h := rateDinner_spec storeC8b "d" "U1" 2
    ({ dinnerC8 with ratings := [("U1", 4), ("U2", 5)], averageRating := 9 / 2 }) e0q
  have e2 : mapGet (RateDinner storeC8b "d" "U1" 2).1.dinners "d"
      = some ({ dinnerC8 with
                ratings := [("U1", 2), ("U2", 5)],
                averageRating := ((7 : Int) : Rat) / ((2 : Nat) : Rat) }) := rfl
  have havg2 : ((7 : Int) : Rat) / ((2 : Nat) : Rat) = 7 / 2 := by norm_num
  refine ⟨e0q, ?_, by rw [e2, havg2]⟩
  rw [h.1]

/-- C9: a GetState read more than 10 minutes after the last write of the
entry returns the normal mode and evicts the backing entry; a read within
the window returns the stored mode; in particular a mode set at time T and
read at T plus 11 minutes reads back as normal with the entry evicted. -/
theorem getState_expiry (m : Manager) (chatID : Int) (cs : ChatState) (now : Nat)
    (h : mapGet m.states chatID = some cs) :
    (10 < now - cs.timestamp →
       GetState m chatID now
         = (ChatMode.normal, { m with states := mapDelete m.states chatID }) ∧
       mapGet (GetState m chatID now).2.states chatID = none) ∧
    (now - cs.timestamp ≤ 10 → GetState m chatID now = (cs.state, m)) ∧
    (∀ st T, GetState (SetState m chatID st T) chatID (T + 11)
       = (ChatMode.normal,
          { SetState m chatID st T with
            states := mapDelete (SetState m chatID st T).states chatID }) ∧
       mapGet (GetState (SetState m chatID st T) chatID (T + 11)).2.states chatID
         = none) := by
  refine ⟨fun hgt => ?_, fun hle => ?_, fun st T => ?_⟩
  · have he : GetState m chatID now
        = (ChatMode.normal, { m with states := mapDelete m.states chatID }) := by
      simp [GetState, h, hgt]
    refine ⟨he, ?_⟩
    rw [he]
    exact mapGet_mapDelete_self _ _
  · simp [GetState, h, Nat.not_lt.mpr hle]
  · have hset : mapGet (SetState m chatID st T).states chatID
        = some ⟨st, T⟩ := mapGet_mapSet_self _ _ _
    have hgt : 10 < (T + 11) - (⟨st, T⟩ : ChatState).timestamp := by
      simp
    have he : GetState (SetState m chatID st T) chatID (T + 11)
        = (ChatMode.normal,
           { SetState m chatID st T with
             states := mapDelete (SetState m chatID st T).states chatID }) := by
      simp [GetState, hset, hgt]
    refine ⟨he, ?_⟩
    rw [he]
    exact mapGet_mapDelete_self _ _

def managerC9 : Manager := { states := [] }

/-- Witness for C9: a mode set at minute 0 reads as normal at minute 11
with the entry gone, and reads back unchanged at minute 9. -/
theorem getState_expiry_witness :
    GetState (SetState managerC9 5 ChatMode.addingIngredients 0) 5 (0 + 11)
      = (ChatMode.normal, managerC9) ∧
    mapGet (GetState (SetState managerC9 5 ChatMode.addingIngredients 0) 5
        (0 + 11)).2.states 5 = none ∧
    GetState (SetState managerC9 5 ChatMode.addingIngredients 0) 5 9
      = (ChatMode.addingIngredients,
         SetState managerC9 5 ChatMode.addingIngredients 0) := by
  have h9 := getState_expiry (SetState managerC9 5 ChatMode.addingIngredients 0) 5
    ⟨ChatMode.addingIngredients, 0⟩ 9 rfl
  have h11 := getState_expiry (SetState managerC9 5 ChatMode.addingIngredients 0) 5
    ⟨ChatMode.addingIngredients, 0⟩ (0 + 11) rfl
  obtain ⟨he, hn⟩ := h11.1 (by decide)
  refine ⟨?_, hn, h9.2.1 (by decide)⟩
  rw [he]
  rfl

/-- A watchdog tick over a single-channel store whose vote has at least
one volunteer only drops the tracking entry: the store is untouched. -/
theorem volunteerTick_withVolunteers (s : Store) (tr : List (String × Nat))
    (now : Nat) (channelID : Int) (c : ChannelState) (cv : VoteState)
    (hchs : s.channels = [(channelID, c)])
    (hcv : c.currentVote = some cv) (hvol : cv.cookVolunteers ≠ []) :
    volunteerTick s tr now = (s, mapDelete tr cv.pollID, []) := by
  have hc : mapGet s.channels channelID = some c := by
    rw [hchs]
    simp [mapGet]
  have hcond : ¬ (cv.endedAt ≠ 0 ∧ cv.winningDish ≠ "" ∧ cv.cookVolunteers = []) := by
    intro h
    exact hvol h.2.2
  unfold volunteerTick
  rw [hchs]
  simp [volunteerCheckChannel, hc, hcv, hcond, hvol]

/-- C7: for a channel whose current vote has ended with a nonempty winner
and no volunteer, the watchdog starts tracking on the first tick that
observes the state; on a later tick with more than 15 minutes of tracked
wait it clears the channel currentVote, drops the poll from tracking and
restarts the dinner workflow; within the grace period nothing changes; and
as soon as a volunteer exists the tracking entry is dropped and no run of
ticks ever clears the vote. -/
theorem cookVolunteerWatchdog_spec (s : Store) (tr : List (String × Nat))
    (restarts : List Int) (channelID : Int) (c : ChannelState) (cv : VoteState)
    (now : Nat) (hc : mapGet s.channels channelID = some c)
    (hcv : c.currentVote = some cv) :
    (cv.endedAt ≠ 0 → cv.winningDish ≠ "" → cv.cookVolunteers = [] →
       (mapGet tr cv.pollID = none →
          volunteerCheckChannel s tr restarts channelID now
            = (s, mapSet tr cv.pollID now, restarts)) ∧
       (∀ t0, mapGet tr cv.pollID = some t0 → 15 < now - t0 →
          volunteerCheckChannel s tr restarts channelID now
            = ({ s with
                 channels :=
                   mapSet s.channels channelID ({ c with currentVote := none }) },
               mapDelete tr cv.pollID, restarts ++ [channelID])) ∧
       (∀ t0, mapGet tr cv.pollID = some t0 → ¬ (15 < now - t0) →
          volunteerCheckChannel s tr restarts channelID now = (s, tr, restarts))) ∧
    (cv.cookVolunteers ≠ [] →
       volunteerCheckChannel s tr restarts channelID now
         = (s, mapDelete tr cv.pollID, restarts) ∧
       (∀ times : List Nat, s.channels = [(channelID, c)] →
          (times.foldl
            (fun acc t =>
              ((volunteerTick acc.1 acc.2 t).1, (volunteerTick acc.1 acc.2 t).2.1))
            (s, tr)).1 = s)) := by
  constructor
  · intro hend hwd hnovol
    have hcond : cv.endedAt ≠ 0 ∧ cv.winningDish ≠ "" ∧ cv.cookVolunteers = [] :=
      ⟨hend, hwd, hnovol⟩
    refine ⟨fun htr => ?_, fun t0 htr hlate => ?_, fun t0 htr hearly => ?_⟩
    · simp [volunteerCheckChannel, hc, hcv, hcond, htr]
    · have hrestart : restartDinnerWorkflow s channelID
          = ({ s with
               channels :=
                 mapSet s.channels channelID ({ c with currentVote := none }) },
             true) := by
        simp [restartDinnerWorkflow, hc, hcv, hend]
      simp [volunteerCheckChannel, hc, hcv, hcond, htr, hlate, hrestart]
    · simp [volunteerCheckChannel, hc, hcv, hcond, htr, hearly]
  · intro hvol
    have hcond : ¬ (cv.endedAt ≠ 0 ∧ cv.winningDish ≠ "" ∧ cv.cookVolunteers = []) := by
      intro h
      exact hvol h.2.2
    constructor
    · simp [volunteerCheckChannel, hc, hcv, hcond, hvol]
    · intro times hchs
      suffices haux : ∀ tr2 : List (String × Nat),
          (times.foldl
            (fun acc t =>
              ((volunteerTick acc.1 acc.2 t).1, (volunteerTick acc.1 acc.2 t).2.1))
            (s, tr2)).1 = s by
        exact haux tr
      intro tr2
      induction times generalizing tr2 with
      | nil => rfl
      | cons t rest ih =>
          rw [List.foldl_cons,
            volunteerTick_withVolunteers s tr2 t channelID c cv hchs hcv hvol]
          exact ih (mapDelete tr2 cv.pollID)

def voteC7 : VoteState :=
  { pollID := "p7", messageID := 0, options := ["Borscht"],
    votes := [("U1", "Borscht")], startedAt := 1, endedAt := 5,
    winningDish := "Borscht", cookVolunteers := [], selectedCook := "" }

def channelC7 : ChannelState :=
  { channelID := 1, fridgeID := "fridge:1", currentDinner := none,
    currentVote := some voteC7, lastActivity := 5, cuisines := [],
    memberCount := 3 }

def storeC7 : Store :=
  { votes := [((1, "p7"), voteC7)], channels := [(1, channelC7)],
    dinners := [], pollMapping := [] }

/-- Witness for C7: a vote ended at minute 5 with winner Borscht and no
volunteer is tracked at minute 20, and at minute 36 (16 tracked minutes)
the channel vote is cleared, tracking dropped and a restart recorded. -/
theorem cookVolunteerWatchdog_spec_witness :
    volunteerCheckChannel storeC7 [] [] 1 20 = (storeC7, [("p7", 20)], []) ∧
    volunteerCheckChannel storeC7 [("p7", 20)] [] 1 36
      = ({ storeC7 with
           channels :=
             mapSet storeC7.channels 1 ({ channelC7 with currentVote := none }) },
         [], [1]) := by
  have h20 := cookVolunteerWatchdog_spec storeC7 [] [] 1 channelC7 voteC7 20 rfl rfl
  have h36 := cookVolunteerWatchdog_spec storeC7 [("p7", 20)] [] 1 channelC7 voteC7 36
    rfl rfl
  refine ⟨(h20.1 (by decide) (by decide) rfl).1 rfl, ?_⟩
  have he := (h36.1 (by decide) (by decide) rfl).2.1 20 rfl (by decide)
  rw [he]
  rfl

/-- C10: for a vote with no ballots GetVoteResults assigns 0 to every
option and returns the empty-string winner — under any map iteration
order — a value that is not among the options; and the Daily Closer, when
force-ending such an open vote, passes this empty winner to EndVote, which
stores it as the winningDish with a nonzero endedAt. -/
theorem emptyVote_closer_spec (s : Store) (channelID : Int) (c : ChannelState)
    (cv vote : VoteState) (now : Nat)
    (hc : mapGet s.channels channelID = some c)
    (hcv : c.currentVote = some cv) (hopen : cv.endedAt = 0)
    (hv : mapGet s.votes (channelID, cv.pollID) = some vote)
    (hempty : vote.votes = [])
    (hdin : c.currentDinner = none)
    (hnow : now ≠ 0) (hneopt : "" ∉ vote.options) :
    (∀ o ∈ vote.options, mapGet (buildResults vote) o = some 0) ∧
    (∀ order, order.Perm (buildResults vote) → findWinnerFold order = ("", 0)) ∧
    GetVoteResults s channelID cv.pollID = Except.ok (buildResults vote, "") ∧
    ((findWinnerFold (buildResults vote)).1 ∉ vote.options) ∧
    mapGet (stopDinnerWorkflow s channelID now).votes (channelID, cv.pollID)
      = some ({ vote with endedAt := now, winningDish := "" }) ∧
    ({ vote with endedAt := now, winningDish := "" }).endedAt ≠ 0 := by
  have hcnt : ∀ o, ballotCount vote o = 0 := by
    intro o
    unfold ballotCount
    rw [hempty]
    rfl
  have hwin : ∀ order, order.Perm (buildResults vote) →
      findWinnerFold order = ("", 0) := by
    intro order hperm
    unfold findWinnerFold
    apply findWinnerFold_keep
    intro e he
    have hz : e.2 = 0 := by
      rw [(buildResults_entry vote e (hperm.subset he)).1, hcnt]
    simp [hz]
  have h1 : (findWinnerFold (buildResults vote)).1 = "" := by
    rw [hwin (buildResults vote) (List.Perm.refl _)]
  have hgvr : GetVoteResults s channelID cv.pollID
      = Except.ok (buildResults vote, "") := by
    simp [GetVoteResults, hv, h1]
  have hstop : stopDinnerWorkflow s channelID now
      = (EndVote s channelID cv.pollID "" now).1 := by
    simp [stopDinnerWorkflow, hc, hcv, hopen, hgvr, hdin]
  have hend : (EndVote s channelID cv.pollID "" now).1.votes
      = mapSet s.votes (channelID, cv.pollID)
          ({ vote with endedAt := now, winningDish := "" }) := by
    simp [EndVote, hv, hc, hcv]
  refine ⟨fun o ho => ?_, hwin, hgvr, ?_, ?_, hnow⟩
  · rw [mapGet_buildResults]
    simp [ho, hcnt o]
  · rw [h1]
    exact hneopt
  · rw [hstop, hend]
    exact mapGet_mapSet_self _ _ _

def voteC10 : VoteState :=
  { pollID := "pX", messageID := 0, options := ["A", "B"], votes := [],
    startedAt := 1, endedAt := 0, winningDish := "",
    cookVolunteers := [], selectedCook := "" }

def channelC10 : ChannelState :=
  { channelID := 2, fridgeID := "fridge:2", currentDinner := none,
    currentVote := some voteC10, lastActivity := 1, cuisines := [],
    memberCount := 3 }

def storeC10 : Store :=
  { votes := [((2, "pX"), voteC10)], channels := [(2, channelC10)],
    dinners := [], pollMapping := [] }

/-- Witness for C10: a no-ballot vote over options A and B tallies to all
zeros with the empty-string winner, and the forced close at minute 9
stores that empty winner on the vote record. -/
theorem emptyVote_closer_spec_witness :
    GetVoteResults storeC10 2 "pX" = Except.ok ([("A", 0), ("B", 0)], "") ∧
    mapGet (stopDinnerWorkflow storeC10 2 9).votes (2, "pX")
      = some ({ voteC10 with endedAt := 9, winningDish := "" }) := by
  have h := emptyVote_closer_spec storeC10 2 channelC10 voteC10 voteC10 9
    rfl rfl rfl rfl rfl rfl (by decide) (by decide)
  exact ⟨h.2.2.1.trans rfl, rfl⟩

end WhatsForDinner
